import Mathlib

/-!
Shallow embedding of the lending transaction engine of the `skl` library
system (backend/src/books/books.service.ts, `BooksService`), together with
the entity model (book.entity.ts, borrow-record.entity.ts).

Modelling conventions:
* The two persistent tables (Book, BorrowRecord) are lists of rows; a
  TypeORM `save` of an entity with an existing primary key is replacement
  of the row with that id; primary-key generation is an explicit counter.
* Each service method that runs inside a transaction is a pure function
  `LibraryState → Except Err (LibraryState × result)`: `.error` is a thrown
  exception, which aborts the transaction, so the caller's state is
  unchanged on failure (this is exactly the transactional-abort semantics
  of `entityManager.transaction`).
* TypeScript `number` quantities are `Int` (DTO validation guarantees they
  are integers); timestamps are abstract `Nat` instants supplied by the
  caller (`new Date()` becomes a `now` parameter).
* Cover-image storage in `create` is external blob IO that happens before
  any database write and aborts the whole request on failure; it is
  invisible to the inventory/loan state and is elided from the state
  machine (we model the no-file / successful-store path, whose database
  effect is identical).
-/

/-- A row of the Book table (book.entity.ts): `quantity` is the total
number of copies, `availableQuantity` the copies currently on the shelf. -/
structure Book where
  id : Nat
  title : String
  author : String
  isbn : String
  publicationYear : Int
  quantity : Int
  availableQuantity : Int
  coverImage : Option String
deriving Repr, DecidableEq

/-- A row of the BorrowRecord table (borrow-record.entity.ts):
`returnedAt = none` means the loan is open. -/
structure BorrowRecord where
  id : Nat
  bookId : Nat
  userId : Nat
  borrowedAt : Nat
  returnedAt : Option Nat
deriving Repr, DecidableEq

/-- create-book.dto.ts (after the class-validator / parseInt pipeline:
`publicationYear` and `quantity` are integers). -/
structure CreateBookDto where
  title : String
  author : String
  isbn : String
  publicationYear : Int
  quantity : Int
deriving Repr, DecidableEq

/-- update-book.dto.ts is `PartialType(CreateBookDto)`: every field
optional; `BooksService.update` only treats `quantity` specially. -/
structure UpdateBookDto where
  title : Option String := none
  author : Option String := none
  isbn : Option String := none
  publicationYear : Option Int := none
  quantity : Option Int := none
deriving Repr, DecidableEq

/-- Exceptions thrown by the service, tagged as in @nestjs/common. -/
inductive Err where
  | notFoundE (msg : String)
  | badRequestE (msg : String)
  | conflictE (msg : String)
  | internalE (msg : String)
deriving Repr, DecidableEq

/-- The persistent state: the two tables plus the primary-key generators. -/
structure LibraryState where
  books : List Book
  loans : List BorrowRecord
  nextBookId : Nat
  nextLoanId : Nat
deriving Repr, DecidableEq

/-- The empty database. -/
def initState : LibraryState := ⟨[], [], 1, 1⟩

/-- `bookRepository.findOneBy({ id })` / `findOne(Book, { where: { id } })`. -/
def findBook (s : LibraryState) (bookId : Nat) : Option Book :=
  s.books.find? (fun b => b.id == bookId)

/-- `findOne(BorrowRecord, { where: { book: {id}, user: {id}, returnedAt: IsNull() } })`. -/
def findOpenLoan (s : LibraryState) (bookId userId : Nat) : Option BorrowRecord :=
  s.loans.find? (fun l => l.bookId == bookId && l.userId == userId && l.returnedAt.isNone)

/-- `save(book)` on an entity with primary key already set: replace the row. -/
def saveBookRow (books : List Book) (b1 : Book) : List Book :=
  books.map (fun b => if b.id == b1.id then b1 else b)

/-- `save(borrowRecord)` on an entity with primary key already set. -/
def saveLoanRow (loans : List BorrowRecord) (l1 : BorrowRecord) : List BorrowRecord :=
  loans.map (fun l => if l.id == l1.id then l1 else l)

/-- `Object.assign(book, updateBookDto)`: overwrite each field the dto
defines (the dto has no `availableQuantity` field, so that one is kept). -/
def applyUpdateDto (b : Book) (dto : UpdateBookDto) : Book :=
  { b with
    title := dto.title.getD b.title
    author := dto.author.getD b.author
    isbn := dto.isbn.getD b.isbn
    publicationYear := dto.publicationYear.getD b.publicationYear
    quantity := dto.quantity.getD b.quantity }

/-- `BooksService.create` (books.service.ts lines 40-96), database effect:
reject duplicate ISBN with Conflict, otherwise insert a book with
`availableQuantity = quantity`. -/
def create (s : LibraryState) (dto : CreateBookDto) : Except Err (LibraryState × Book) :=
  if s.books.any (fun b => b.isbn == dto.isbn) then
    .error (.conflictE "A book with this ISBN already exists.")
  else
    let book : Book :=
      { id := s.nextBookId
        title := dto.title
        author := dto.author
        isbn := dto.isbn
        publicationYear := dto.publicationYear
        quantity := dto.quantity
        availableQuantity := dto.quantity
        coverImage := none }
    .ok ({ s with books := s.books ++ [book], nextBookId := s.nextBookId + 1 }, book)

/-- `BooksService.update` (books.service.ts lines 130-143): when the dto
carries a quantity, recompute `availableQuantity` from the outstanding
count before `Object.assign` overwrites `quantity`. -/
def update (s : LibraryState) (id : Nat) (dto : UpdateBookDto) :
    Except Err (LibraryState × Book) :=
  match findBook s id with
  | none => .error (.notFoundE s!"Book with ID {id} not found.")
  | some book =>
    match dto.quantity with
    | some newQ =>
      let borrowedCount := book.quantity - book.availableQuantity
      if newQ < borrowedCount then
        .error (.badRequestE "New quantity cannot be less than the number of borrowed books.")
      else
        let book1 := applyUpdateDto
          { book with availableQuantity := newQ - borrowedCount } dto
        .ok ({ s with books := saveBookRow s.books book1 }, book1)
    | none =>
      let book1 := applyUpdateDto book dto
      .ok ({ s with books := saveBookRow s.books book1 }, book1)

/-- `BooksService.borrow` (books.service.ts lines 145-184): inside one
transaction with the book row locked, check existence, availability,
then no duplicate open loan; decrement and insert an open loan. -/
def borrow (s : LibraryState) (bookId userId now : Nat) :
    Except Err (LibraryState × BorrowRecord) :=
  match findBook s bookId with
  | none => .error (.notFoundE s!"Book with ID {bookId} not found.")
  | some book =>
    if book.availableQuantity ≤ 0 then
      .error (.badRequestE "No copies of this book are available.")
    else
      match findOpenLoan s bookId userId with
      | some _ => .error (.conflictE "You have already borrowed this book.")
      | none =>
        let book1 := { book with availableQuantity := book.availableQuantity - 1 }
        let newLoan : BorrowRecord :=
          { id := s.nextLoanId, bookId := bookId, userId := userId
            borrowedAt := now, returnedAt := none }
        .ok ({ s with
                books := saveBookRow s.books book1
                loans := s.loans ++ [newLoan]
                nextLoanId := s.nextLoanId + 1 }, newLoan)

/-- `BooksService.return` (books.service.ts lines 186-225): inside one
transaction with the book row locked, check existence, then an open loan,
then the corruption guard `availableQuantity >= quantity`; increment and
close the loan. -/
def returnBook (s : LibraryState) (bookId userId now : Nat) :
    Except Err (LibraryState × BorrowRecord) :=
  match findBook s bookId with
  | none => .error (.notFoundE s!"Book with ID {bookId} not found.")
  | some book =>
    match findOpenLoan s bookId userId with
    | none =>
      .error (.notFoundE "No active borrow record found for this user and book.")
    | some record =>
      if book.availableQuantity ≥ book.quantity then
        .error (.internalE
          "Data inconsistency detected: Cannot return a book when all copies are already available.")
      else
        let book1 := { book with availableQuantity := book.availableQuantity + 1 }
        let record1 := { record with returnedAt := some now }
        .ok ({ s with
                books := saveBookRow s.books book1
                loans := saveLoanRow s.loans record1 }, record1)

/-- The number of open loans referencing a given book. -/
def openLoanCount (s : LibraryState) (bookId : Nat) : Nat :=
  (s.loans.filter (fun l => l.bookId == bookId && l.returnedAt.isNone)).length

/-- The spec's core invariant for every Title at rest. -/
def CoreInv (s : LibraryState) : Prop :=
  ∀ b ∈ s.books,
    0 ≤ b.availableQuantity ∧ b.availableQuantity ≤ b.quantity ∧
    b.quantity - b.availableQuantity = (openLoanCount s b.id : Int)

/-- Bookkeeping facts about primary keys that the store guarantees:
ids are unique in each table and below the generator. -/
def StoreWF (s : LibraryState) : Prop :=
  (s.books.map Book.id).Nodup ∧ (∀ b ∈ s.books, b.id < s.nextBookId) ∧
  (s.loans.map BorrowRecord.id).Nodup ∧ (∀ l ∈ s.loans, l.id < s.nextLoanId) ∧
  (∀ l ∈ s.loans, l.bookId < s.nextBookId)

/-- States reachable from the empty database through committed
create / update / borrow / return operations. A create request only reaches
the service after the global ValidationPipe has enforced the
class-validator guards of create-book.dto.ts; the one guard the inventory
state depends on is `@IsPositive` on `quantity`, recorded here as the side
condition `0 < dto.quantity` of `stepCreate`. -/
inductive Reachable : LibraryState → Prop where
  | init : Reachable initState
  | stepCreate {s s' : LibraryState} {dto : CreateBookDto} {b : Book} :
      Reachable s → 0 < dto.quantity → create s dto = .ok (s', b) → Reachable s'
  | stepUpdate {s s' : LibraryState} {id : Nat} {dto : UpdateBookDto} {b : Book} :
      Reachable s → update s id dto = .ok (s', b) → Reachable s'
  | stepBorrow {s s' : LibraryState} {bookId userId now : Nat} {r : BorrowRecord} :
      Reachable s → borrow s bookId userId now = .ok (s', r) → Reachable s'
  | stepReturn {s s' : LibraryState} {bookId userId now : Nat} {r : BorrowRecord} :
      Reachable s → returnBook s bookId userId now = .ok (s', r) → Reachable s'

/-! ### Facts about the row-store primitives -/

theorem findBook_mem_id {s : LibraryState} {bookId : Nat} {book : Book}
    (h : findBook s bookId = some book) : book ∈ s.books ∧ book.id = bookId := by
  refine ⟨List.mem_of_find?_eq_some h, ?_⟩
  have hp := List.find?_some h
  simpa using hp

theorem findOpenLoan_mem {s : LibraryState} {bookId userId : Nat} {record : BorrowRecord}
    (h : findOpenLoan s bookId userId = some record) :
    record ∈ s.loans ∧ record.bookId = bookId ∧ record.userId = userId ∧
      record.returnedAt = none := by
  refine ⟨List.mem_of_find?_eq_some h, ?_⟩
  have hp := List.find?_some h
  simp only [Bool.and_eq_true, beq_iff_eq, Option.isNone_iff_eq_none] at hp
  exact ⟨hp.1.1, hp.1.2, hp.2⟩

theorem findOpenLoan_none_iff {s : LibraryState} {bookId userId : Nat} :
    findOpenLoan s bookId userId = none ↔
      ∀ l ∈ s.loans, ¬(l.bookId = bookId ∧ l.userId = userId ∧ l.returnedAt = none) := by
  unfold findOpenLoan
  rw [List.find?_eq_none]
  constructor
  · intro h l hl hcon
    exact h l hl (by simp [hcon.1, hcon.2.1, hcon.2.2])
  · intro h l hl hp
    simp only [Bool.and_eq_true, beq_iff_eq, Option.isNone_iff_eq_none] at hp
    exact h l hl ⟨hp.1.1, hp.1.2, hp.2⟩

theorem map_id_saveBookRow (books : List Book) (b1 : Book) :
    (saveBookRow books b1).map Book.id = books.map Book.id := by
  unfold saveBookRow
  rw [List.map_map]
  apply List.map_congr_left
  intro b _
  by_cases h : b.id = b1.id
  · simp [h]
  · simp [h]

theorem map_id_saveLoanRow (loans : List BorrowRecord) (r1 : BorrowRecord) :
    (saveLoanRow loans r1).map BorrowRecord.id = loans.map BorrowRecord.id := by
  unfold saveLoanRow
  rw [List.map_map]
  apply List.map_congr_left
  intro l _
  by_cases h : l.id = r1.id
  · simp [h]
  · simp [h]

theorem mem_saveBookRow_elim {books : List Book} {b1 b' : Book}
    (h : b' ∈ saveBookRow books b1) :
    b' = b1 ∨ (b' ∈ books ∧ b'.id ≠ b1.id) := by
  unfold saveBookRow at h
  obtain ⟨b, hb, hval⟩ := List.mem_map.mp h
  by_cases hid : b.id = b1.id
  · left
    simp only [hid, beq_self_eq_true, if_pos] at hval
    exact hval.symm
  · right
    have hbeq : (b.id == b1.id) = false := by simp [hid]
    rw [hbeq] at hval
    simp only [Bool.false_eq_true, if_false] at hval
    exact hval ▸ ⟨hb, hid⟩

theorem saveLoanRow_of_forall_ne {loans : List BorrowRecord} {r1 : BorrowRecord}
    (h : ∀ l ∈ loans, l.id ≠ r1.id) : saveLoanRow loans r1 = loans := by
  unfold saveLoanRow
  conv_rhs => rw [show loans = loans.map id from (List.map_id loans).symm]
  apply List.map_congr_left
  intro l hl
  simp [h l hl]

theorem find?_saveBookRow_self (books : List Book) (b1 : Book) :
    (saveBookRow books b1).find? (fun b => b.id == b1.id)
      = (books.find? (fun b => b.id == b1.id)).map (fun _ => b1) := by
  induction books with
  | nil => simp [saveBookRow]
  | cons b bs ih =>
    by_cases h : b.id = b1.id
    · simp [saveBookRow, List.find?, h]
    · simp only [saveBookRow, List.map_cons, beq_iff_eq, if_neg h] at *
      rw [List.find?_cons_of_neg, List.find?_cons_of_neg]
      · exact ih
      · simp [h]
      · simp [h]

theorem eq_of_nodup_ids_book {books : List Book} (hnd : (books.map Book.id).Nodup)
    {a b : Book} (ha : a ∈ books) (hb : b ∈ books) (hid : a.id = b.id) : a = b :=
  List.inj_on_of_nodup_map hnd ha hb hid

theorem openLoanCount_eq_countP (s : LibraryState) (k : Nat) :
    openLoanCount s k = s.loans.countP (fun l => l.bookId == k && l.returnedAt.isNone) := by
  unfold openLoanCount
  rw [List.countP_eq_length_filter]

theorem saveLoanRow_cons (l : BorrowRecord) (ls : List BorrowRecord) (r1 : BorrowRecord) :
    saveLoanRow (l :: ls) r1 = (if l.id == r1.id then r1 else l) :: saveLoanRow ls r1 := rfl

theorem countP_saveLoanRow {loans : List BorrowRecord} {r r1 : BorrowRecord}
    (hnd : (loans.map BorrowRecord.id).Nodup) (hmem : r ∈ loans) (hid : r1.id = r.id)
    (q : BorrowRecord → Bool) :
    (saveLoanRow loans r1).countP q + (if q r then 1 else 0)
      = loans.countP q + (if q r1 then 1 else 0) := by
  induction loans with
  | nil => cases hmem
  | cons l ls ih =>
    simp only [List.map_cons, List.nodup_cons] at hnd
    rcases List.mem_cons.mp hmem with hlr | hr
    · subst hlr
      rw [saveLoanRow_cons]
      have hhead : (r.id == r1.id) = true := by simp [hid]
      have h2 : saveLoanRow ls r1 = ls := by
        apply saveLoanRow_of_forall_ne
        intro x hx hxid
        have hmm : x.id ∈ ls.map BorrowRecord.id := List.mem_map_of_mem BorrowRecord.id hx
        rw [hxid, hid] at hmm
        exact hnd.1 hmm
      rw [hhead, if_pos rfl, h2, List.countP_cons, List.countP_cons]
      omega
    · have hne : l.id ≠ r.id := by
        intro hc
        have hmm : r.id ∈ ls.map BorrowRecord.id := List.mem_map_of_mem BorrowRecord.id hr
        rw [← hc] at hmm
        exact hnd.1 hmm
      have hlne : (l.id == r1.id) = false := by simp [hid, hne]
      rw [saveLoanRow_cons, hlne]
      simp only [Bool.false_eq_true, if_false]
      rw [List.countP_cons, List.countP_cons]
      have hih := ih hnd.2 hr
      omega

/-! ### Inversion of the successful operations -/

theorem create_ok_elim {s s' : LibraryState} {dto : CreateBookDto} {b : Book}
    (h : create s dto = .ok (s', b)) :
    b = { id := s.nextBookId, title := dto.title, author := dto.author, isbn := dto.isbn,
          publicationYear := dto.publicationYear, quantity := dto.quantity,
          availableQuantity := dto.quantity, coverImage := none } ∧
    s' = { s with books := s.books ++ [b], nextBookId := s.nextBookId + 1 } := by
  simp only [create] at h
  split at h
  · simp at h
  · simp only [Except.ok.injEq, Prod.mk.injEq] at h
    obtain ⟨h1, h2⟩ := h
    subst h2
    subst h1
    exact ⟨rfl, rfl⟩

theorem borrow_ok_elim {s s' : LibraryState} {bookId userId now : Nat} {r : BorrowRecord}
    (h : borrow s bookId userId now = .ok (s', r)) :
    ∃ book, findBook s bookId = some book ∧ 0 < book.availableQuantity ∧
      findOpenLoan s bookId userId = none ∧
      r = { id := s.nextLoanId, bookId := bookId, userId := userId,
            borrowedAt := now, returnedAt := none } ∧
      s' = { s with
              books := saveBookRow s.books
                { book with availableQuantity := book.availableQuantity - 1 }
              loans := s.loans ++ [r]
              nextLoanId := s.nextLoanId + 1 } := by
  cases hfb : findBook s bookId with
  | none =>
    simp only [borrow, hfb] at h
    exact Except.noConfusion h
  | some book =>
    refine ⟨book, rfl, ?_⟩
    simp only [borrow, hfb] at h
    split at h
    · simp at h
    · rename_i hav
      cases hfl : findOpenLoan s bookId userId with
      | some l0 => rw [hfl] at h; simp at h
      | none =>
        rw [hfl] at h
        simp only [Except.ok.injEq, Prod.mk.injEq] at h
        obtain ⟨h1, h2⟩ := h
        subst h2
        subst h1
        exact ⟨by omega, rfl, rfl, rfl⟩

theorem returnBook_ok_elim {s s' : LibraryState} {bookId userId now : Nat} {r : BorrowRecord}
    (h : returnBook s bookId userId now = .ok (s', r)) :
    ∃ book record, findBook s bookId = some book ∧
      findOpenLoan s bookId userId = some record ∧
      book.availableQuantity < book.quantity ∧
      r = { record with returnedAt := some now } ∧
      s' = { s with
              books := saveBookRow s.books
                { book with availableQuantity := book.availableQuantity + 1 }
              loans := saveLoanRow s.loans r } := by
  cases hfb : findBook s bookId with
  | none =>
    simp only [returnBook, hfb] at h
    exact Except.noConfusion h
  | some book =>
    cases hfl : findOpenLoan s bookId userId with
    | none =>
      simp only [returnBook, hfb, hfl] at h
      exact Except.noConfusion h
    | some record =>
      refine ⟨book, record, rfl, rfl, ?_⟩
      simp only [returnBook, hfb, hfl] at h
      split at h
      · simp at h
      · rename_i hge
        simp only [Except.ok.injEq, Prod.mk.injEq] at h
        obtain ⟨h1, h2⟩ := h
        subst h2
        subst h1
        exact ⟨by omega, rfl, rfl⟩

theorem update_ok_elim {s s' : LibraryState} {id : Nat} {dto : UpdateBookDto} {b : Book}
    (h : update s id dto = .ok (s', b)) :
    ∃ book, findBook s id = some book ∧
      ((∃ newQ, dto.quantity = some newQ ∧
          book.quantity - book.availableQuantity ≤ newQ ∧
          b = applyUpdateDto
            { book with
              availableQuantity := newQ - (book.quantity - book.availableQuantity) } dto) ∨
        (dto.quantity = none ∧ b = applyUpdateDto book dto)) ∧
      s' = { s with books := saveBookRow s.books b } := by
  cases hfb : findBook s id with
  | none =>
    simp only [update, hfb] at h
    exact Except.noConfusion h
  | some book =>
    refine ⟨book, rfl, ?_⟩
    cases hq : dto.quantity with
    | some newQ =>
      simp only [update, hfb, hq] at h
      split at h
      · exact Except.noConfusion h
      · rename_i hlt
        simp only [Except.ok.injEq, Prod.mk.injEq] at h
        obtain ⟨h1, h2⟩ := h
        subst h2
        subst h1
        exact ⟨Or.inl ⟨newQ, rfl, by omega, rfl⟩, rfl⟩
    | none =>
      simp only [update, hfb, hq] at h
      simp only [Except.ok.injEq, Prod.mk.injEq] at h
      obtain ⟨h1, h2⟩ := h
      subst h2
      subst h1
      exact ⟨Or.inr ⟨rfl, rfl⟩, rfl⟩

/-! ### Preservation of StoreWF and CoreInv by every committed operation -/

theorem mem_saveLoanRow_elim {loans : List BorrowRecord} {r1 l' : BorrowRecord}
    (h : l' ∈ saveLoanRow loans r1) :
    l' = r1 ∨ (l' ∈ loans ∧ l'.id ≠ r1.id) := by
  unfold saveLoanRow at h
  obtain ⟨l, hl, hval⟩ := List.mem_map.mp h
  by_cases hid : l.id = r1.id
  · left
    simp only [hid, beq_self_eq_true, if_pos] at hval
    exact hval.symm
  · right
    have hbeq : (l.id == r1.id) = false := by simp [hid]
    rw [hbeq] at hval
    simp only [Bool.false_eq_true, if_false] at hval
    exact hval ▸ ⟨hl, hid⟩

theorem preserve_create {s s' : LibraryState} {dto : CreateBookDto} {b : Book}
    (hq : 0 < dto.quantity) (hwf : StoreWF s) (hinv : CoreInv s)
    (h : create s dto = .ok (s', b)) : StoreWF s' ∧ CoreInv s' := by
  obtain ⟨hb, hs'⟩ := create_ok_elim h
  obtain ⟨hbn, hbb, hln, hlb, hlk⟩ := hwf
  have hbid : b.id = s.nextBookId := by rw [hb]
  subst hs'
  constructor
  · refine ⟨?_, ?_, hln, hlb, ?_⟩
    · show ((s.books ++ [b]).map Book.id).Nodup
      rw [List.map_append]
      rw [List.nodup_append]
      refine ⟨hbn, List.nodup_singleton _, ?_⟩
      intro a ha ha2
      simp only [List.map_cons, List.map_nil, List.mem_singleton] at ha2
      subst ha2
      obtain ⟨x, hx, hxid⟩ := List.mem_map.mp ha
      have := hbb x hx
      rw [hxid, hbid] at this
      omega
    · intro x hx
      show x.id < s.nextBookId + 1
      rcases List.mem_append.mp hx with hxs | hxb
      · have := hbb x hxs
        omega
      · simp only [List.mem_singleton] at hxb
        subst hxb
        rw [hbid]
        omega
    · intro l hl
      show l.bookId < s.nextBookId + 1
      have := hlk l hl
      omega
  · intro x hx
    have hcount : ∀ k,
        openLoanCount { s with books := s.books ++ [b], nextBookId := s.nextBookId + 1 } k
          = openLoanCount s k := fun _ => rfl
    rcases List.mem_append.mp hx with hxs | hxb
    · rw [hcount]
      exact hinv x hxs
    · simp only [List.mem_singleton] at hxb
      subst hxb
      rw [hcount]
      have hzero : openLoanCount s x.id = 0 := by
        rw [openLoanCount_eq_countP, List.countP_eq_zero]
        intro l hl
        have hlt := hlk l hl
        rw [hbid]
        simp only [Bool.and_eq_true, beq_iff_eq, not_and]
        intro hcon
        omega
      rw [hzero, hb]
      refine ⟨by simpa using le_of_lt hq, le_refl _, by simp⟩

theorem preserve_update {s s' : LibraryState} {id : Nat} {dto : UpdateBookDto} {b : Book}
    (hwf : StoreWF s) (hinv : CoreInv s)
    (h : update s id dto = .ok (s', b)) : StoreWF s' ∧ CoreInv s' := by
  obtain ⟨book, hfb, hcase, hs'⟩ := update_ok_elim h
  obtain ⟨hmem, hbid⟩ := findBook_mem_id hfb
  obtain ⟨hbn, hbb, hln, hlb, hlk⟩ := hwf
  have hbid2 : b.id = book.id := by
    rcases hcase with ⟨newQ, _, _, hbeq⟩ | ⟨_, hbeq⟩ <;> rw [hbeq] <;> rfl
  subst hs'
  constructor
  · refine ⟨?_, ?_, hln, hlb, hlk⟩
    · show ((saveBookRow s.books b).map Book.id).Nodup
      rw [map_id_saveBookRow]
      exact hbn
    · intro x hx
      rcases mem_saveBookRow_elim hx with hx1 | ⟨hx2, _⟩
      · subst hx1
        rw [hbid2]
        exact hbb book hmem
      · exact hbb x hx2
  · intro x hx
    have hcount : ∀ k,
        openLoanCount { s with books := saveBookRow s.books b } k = openLoanCount s k :=
      fun _ => rfl
    rcases mem_saveBookRow_elim hx with hx1 | ⟨hx2, _⟩
    · subst hx1
      obtain ⟨h1, h2, h3⟩ := hinv book hmem
      rw [hcount, hbid2]
      rcases hcase with ⟨newQ, hq, hle, hbeq⟩ | ⟨hq, hbeq⟩
      · have hbq : x.quantity = newQ := by rw [hbeq]; simp [applyUpdateDto, hq]
        have hba : x.availableQuantity = newQ - (book.quantity - book.availableQuantity) := by
          rw [hbeq]; rfl
        rw [hbq, hba]
        refine ⟨by omega, by omega, by omega⟩
      · have hbq : x.quantity = book.quantity := by rw [hbeq]; simp [applyUpdateDto, hq]
        have hba : x.availableQuantity = book.availableQuantity := by rw [hbeq]; rfl
        rw [hbq, hba]
        exact ⟨h1, h2, h3⟩
    · rw [hcount]
      exact hinv x hx2

theorem preserve_borrow {s s' : LibraryState} {bookId userId now : Nat} {r : BorrowRecord}
    (hwf : StoreWF s) (hinv : CoreInv s)
    (h : borrow s bookId userId now = .ok (s', r)) : StoreWF s' ∧ CoreInv s' := by
  obtain ⟨book, hfb, hav, hfl, hr, hs'⟩ := borrow_ok_elim h
  obtain ⟨hmem, hbid⟩ := findBook_mem_id hfb
  obtain ⟨hbn, hbb, hln, hlb, hlk⟩ := hwf
  subst hs'
  subst hr
  have hcount : ∀ k,
      openLoanCount
        { s with
            books := saveBookRow s.books
              { book with availableQuantity := book.availableQuantity - 1 }
            loans := s.loans ++
              [{ id := s.nextLoanId, bookId := bookId, userId := userId,
                 borrowedAt := now, returnedAt := none }]
            nextLoanId := s.nextLoanId + 1 } k
        = openLoanCount s k + (if bookId == k then 1 else 0) := by
    intro k
    rw [openLoanCount_eq_countP, openLoanCount_eq_countP]
    show (s.loans ++ [_]).countP _ = _
    rw [List.countP_append]
    congr 1
    simp [List.countP_cons]
  constructor
  · refine ⟨?_, ?_, ?_, ?_, ?_⟩
    · show ((saveBookRow s.books _).map Book.id).Nodup
      rw [map_id_saveBookRow]
      exact hbn
    · intro x hx
      show x.id < s.nextBookId
      rcases mem_saveBookRow_elim hx with hx1 | ⟨hx2, _⟩
      · subst hx1
        exact hbb book hmem
      · exact hbb x hx2
    · show ((s.loans ++ [_]).map BorrowRecord.id).Nodup
      rw [List.map_append, List.nodup_append]
      refine ⟨hln, List.nodup_singleton _, ?_⟩
      intro a ha ha2
      simp only [List.map_cons, List.map_nil, List.mem_singleton] at ha2
      subst ha2
      obtain ⟨l, hl, hlid⟩ := List.mem_map.mp ha
      have := hlb l hl
      omega
    · intro l hl
      show l.id < s.nextLoanId + 1
      rcases List.mem_append.mp hl with hls | hlr
      · have := hlb l hls
        omega
      · simp only [List.mem_singleton] at hlr
        subst hlr
        show s.nextLoanId < s.nextLoanId + 1
        omega
    · intro l hl
      show l.bookId < s.nextBookId
      rcases List.mem_append.mp hl with hls | hlr
      · exact hlk l hls
      · simp only [List.mem_singleton] at hlr
        subst hlr
        show bookId < s.nextBookId
        rw [← hbid]
        exact hbb book hmem
  · intro x hx
    rcases mem_saveBookRow_elim hx with hx1 | ⟨hx2, hxid⟩
    · subst hx1
      obtain ⟨h1, h2, h3⟩ := hinv book hmem
      rw [hcount]
      dsimp only
      rw [hbid, if_pos (beq_self_eq_true bookId)]
      rw [hbid] at h3
      push_cast
      refine ⟨by omega, by omega, by omega⟩
    · obtain ⟨h1, h2, h3⟩ := hinv x hx2
      rw [hcount]
      have hxne : (bookId == x.id) = false := by
        have hne : x.id ≠ book.id := hxid
        simp only [beq_eq_false_iff_ne, ne_eq]
        omega
      rw [hxne]
      simp only [Bool.false_eq_true, if_false, Nat.add_zero]
      exact ⟨h1, h2, h3⟩

theorem preserve_return {s s' : LibraryState} {bookId userId now : Nat} {r : BorrowRecord}
    (hwf : StoreWF s) (hinv : CoreInv s)
    (h : returnBook s bookId userId now = .ok (s', r)) : StoreWF s' ∧ CoreInv s' := by
  obtain ⟨book, record, hfb, hfl, hlt, hr, hs'⟩ := returnBook_ok_elim h
  obtain ⟨hmem, hbid⟩ := findBook_mem_id hfb
  obtain ⟨hlm, hlbid, hluid, hlopen⟩ := findOpenLoan_mem hfl
  obtain ⟨hbn, hbb, hln, hlb, hlk⟩ := hwf
  subst hs'
  subst hr
  have hcnt : ∀ k,
      (saveLoanRow s.loans { record with returnedAt := some now }).countP
          (fun l => l.bookId == k && l.returnedAt.isNone)
        + (if record.bookId == k then 1 else 0)
      = s.loans.countP (fun l => l.bookId == k && l.returnedAt.isNone) := by
    intro k
    have hgen := @countP_saveLoanRow s.loans record
      { record with returnedAt := some now } hln hlm rfl
      (fun l => l.bookId == k && l.returnedAt.isNone)
    simp only [hlopen, Option.isNone_none, Bool.and_true, Option.isNone_some,
      Bool.and_false, Bool.false_eq_true, if_false, Nat.add_zero] at hgen
    exact hgen
  have hcount : ∀ k,
      openLoanCount
        { s with
            books := saveBookRow s.books
              { book with availableQuantity := book.availableQuantity + 1 }
            loans := saveLoanRow s.loans { record with returnedAt := some now } } k
        = (saveLoanRow s.loans { record with returnedAt := some now }).countP
            (fun l => l.bookId == k && l.returnedAt.isNone) := by
    intro k
    rw [openLoanCount_eq_countP]
  constructor
  · refine ⟨?_, ?_, ?_, ?_, ?_⟩
    · show ((saveBookRow s.books _).map Book.id).Nodup
      rw [map_id_saveBookRow]
      exact hbn
    · intro x hx
      show x.id < s.nextBookId
      rcases mem_saveBookRow_elim hx with hx1 | ⟨hx2, _⟩
      · subst hx1
        exact hbb book hmem
      · exact hbb x hx2
    · show ((saveLoanRow s.loans _).map BorrowRecord.id).Nodup
      rw [map_id_saveLoanRow]
      exact hln
    · intro l hl
      show l.id < s.nextLoanId
      rcases mem_saveLoanRow_elim hl with hl1 | ⟨hl2, _⟩
      · subst hl1
        exact hlb record hlm
      · exact hlb l hl2
    · intro l hl
      show l.bookId < s.nextBookId
      rcases mem_saveLoanRow_elim hl with hl1 | ⟨hl2, _⟩
      · subst hl1
        exact hlk record hlm
      · exact hlk l hl2
  · intro x hx
    rcases mem_saveBookRow_elim hx with hx1 | ⟨hx2, hxid⟩
    · subst hx1
      obtain ⟨h1, h2, h3⟩ := hinv book hmem
      rw [hcount]
      dsimp only
      have hck := hcnt book.id
      have hrb : (record.bookId == book.id) = true := by
        rw [hlbid, ← hbid]
        exact beq_self_eq_true _
      rw [hrb, if_pos rfl] at hck
      rw [openLoanCount_eq_countP] at h3
      refine ⟨by omega, by omega, by omega⟩
    · obtain ⟨h1, h2, h3⟩ := hinv x hx2
      rw [hcount]
      have hck := hcnt x.id
      have hrb : (record.bookId == x.id) = false := by
        have hne : x.id ≠ book.id := hxid
        rw [hlbid, ← hbid]
        simp only [beq_eq_false_iff_ne, ne_eq]
        omega
      rw [hrb] at hck
      simp only [Bool.false_eq_true, if_false, Nat.add_zero] at hck
      rw [openLoanCount_eq_countP] at h3
      rw [hck]
      exact ⟨h1, h2, h3⟩

theorem reachable_storeWF_coreInv {s : LibraryState} (h : Reachable s) :
    StoreWF s ∧ CoreInv s := by
  induction h with
  | init =>
    constructor
    · refine ⟨?_, ?_, ?_, ?_, ?_⟩ <;> simp [initState]
    · intro b hb
      simp [initState] at hb
  | stepCreate hr hq hop ih => exact preserve_create hq ih.1 ih.2 hop
  | stepUpdate hr hop ih => exact preserve_update ih.1 ih.2 hop
  | stepBorrow hr hop ih => exact preserve_borrow ih.1 ih.2 hop
  | stepReturn hr hop ih => exact preserve_return ih.1 ih.2 hop

/-! ### Concrete example states used to instantiate the theorems -/

/-- A sample creation request (quantity 2). -/
def exDto : CreateBookDto :=
  { title := "The Hobbit", author := "Tolkien", isbn := "isbn-1",
    publicationYear := 1937, quantity := 2 }

/-- The book row produced by `create initState exDto`. -/
def exBook : Book :=
  { id := 1, title := "The Hobbit", author := "Tolkien", isbn := "isbn-1",
    publicationYear := 1937, quantity := 2, availableQuantity := 2, coverImage := none }

/-- The state after creating `exDto` in the empty database. -/
def exS1 : LibraryState := ⟨[exBook], [], 2, 1⟩

theorem exS1_reachable : Reachable exS1 :=
  @Reachable.stepCreate initState exS1 exDto exBook Reachable.init (by decide) rfl

/-- The state after user 7 borrows book 1 in `exS1` at time 3. -/
def exS2 : LibraryState :=
  ⟨[{ exBook with availableQuantity := 1 }], [⟨1, 1, 7, 3, none⟩], 2, 2⟩

theorem exS2_reachable : Reachable exS2 :=
  @Reachable.stepBorrow exS1 exS2 1 7 3 ⟨1, 1, 7, 3, none⟩ exS1_reachable rfl

/-! ### The claims -/

/-- C1: for every Title at rest in a reachable state,
`0 ≤ availableCopies ≤ totalCopies` and `totalCopies − availableCopies`
equals the number of open Loans referencing that Title; the invariant is
established by Create on the empty store and preserved by every committed
Borrow, Return and UpdateQuantity operation (the induction over
`Reachable` is exactly that establishment and preservation). -/
theorem claim_core_invariant {s : LibraryState} (h : Reachable s) : CoreInv s :=
  (reachable_storeWF_coreInv h).2

theorem claim_core_invariant_witness : CoreInv exS2 :=
  claim_core_invariant exS2_reachable

/-- C3: Borrow fails exactly when one of its preconditions is violated,
with the specified error and in the specified precedence order: NotFound
when the Title does not exist, InvalidState (BadRequest, "No copies of
this book are available.") when `availableCopies ≤ 0`, Conflict when an
open Loan for the pair already exists; and every failure is one of these.
On failure the transaction aborts, so the embedding returns `.error` and
the caller's state is untouched — no Loan insertion or decrement
survives. -/
theorem claim_borrow_failure (s : LibraryState) (bookId userId now : Nat) :
    (findBook s bookId = none →
      borrow s bookId userId now
        = .error (.notFoundE s!"Book with ID {bookId} not found.")) ∧
    (∀ book, findBook s bookId = some book → book.availableQuantity ≤ 0 →
      borrow s bookId userId now
        = .error (.badRequestE "No copies of this book are available.")) ∧
    (∀ book, findBook s bookId = some book → 0 < book.availableQuantity →
      findOpenLoan s bookId userId ≠ none →
      borrow s bookId userId now
        = .error (.conflictE "You have already borrowed this book.")) ∧
    (∀ e, borrow s bookId userId now = .error e →
      findBook s bookId = none ∨
      (∃ book, findBook s bookId = some book ∧ book.availableQuantity ≤ 0) ∨
      findOpenLoan s bookId userId ≠ none) := by
  refine ⟨?_, ?_, ?_, ?_⟩
  · intro h0
    simp only [borrow, h0]
  · intro book hfb hle
    simp only [borrow, hfb]
    rw [if_pos hle]
  · intro book hfb hgt hne
    simp only [borrow, hfb]
    rw [if_neg (by omega)]
    cases hfl : findOpenLoan s bookId userId with
    | none => exact absurd hfl hne
    | some l0 => simp only [hfl]
  · intro e herr
    cases hfb : findBook s bookId with
    | none => exact Or.inl rfl
    | some book =>
      simp only [borrow, hfb] at herr
      by_cases hle : book.availableQuantity ≤ 0
      · exact Or.inr (Or.inl ⟨book, rfl, hle⟩)
      · rw [if_neg hle] at herr
        cases hfl : findOpenLoan s bookId userId with
        | none =>
          rw [hfl] at herr
          exact Except.noConfusion herr
        | some l0 =>
          refine Or.inr (Or.inr ?_)
          simp [hfl]
  
theorem claim_borrow_failure_witness :
    borrow initState 5 1 0 = .error (.notFoundE "Book with ID 5 not found.") :=
  (claim_borrow_failure initState 5 1 0).1 rfl

/-- A contrived corrupted state: a Title whose copies are all available
yet an open Loan exists for it (`availableCopies = totalCopies = 2`). -/
def exCorrupt : LibraryState :=
  ⟨[⟨1, "T", "A", "i", 2000, 2, 2, none⟩], [⟨1, 1, 7, 0, none⟩], 2, 2⟩

/-- C5: when the Title exists, an open Loan for the pair exists, but
`availableCopies ≥ totalCopies`, Return fails with the Internal
data-corruption error; the transaction aborts, so no increment, no clamp
and no change to the Loan survives — the `.error` result leaves the
caller's state untouched. -/
theorem claim_return_corruption {s : LibraryState} {bookId userId now : Nat}
    {book : Book} {record : BorrowRecord}
    (hfb : findBook s bookId = some book)
    (hfl : findOpenLoan s bookId userId = some record)
    (hge : book.availableQuantity ≥ book.quantity) :
    returnBook s bookId userId now = .error (.internalE
      "Data inconsistency detected: Cannot return a book when all copies are already available.") := by
  simp only [returnBook, hfb, hfl]
  rw [if_pos hge]

theorem claim_return_corruption_witness :
    returnBook exCorrupt 1 7 9 = .error (.internalE
      "Data inconsistency detected: Cannot return a book when all copies are already available.") :=
  @claim_return_corruption exCorrupt 1 7 9 ⟨1, "T", "A", "i", 2000, 2, 2, none⟩
    ⟨1, 1, 7, 0, none⟩ rfl rfl (by decide)

/-- C8: Return fails with NotFound when the Title does not exist, and
fails with NotFound ("No active borrow record found for this user and
book.") when the Title exists but no open Loan for the pair exists — with
no condition at all on `availableCopies`, so in particular also when
`availableCopies = totalCopies` (the no-loan check runs before the
corruption guard). The `.error` result leaves the inventory counts
untouched. -/
theorem claim_return_notFound (s : LibraryState) (bookId userId now : Nat) :
    (findBook s bookId = none →
      returnBook s bookId userId now
        = .error (.notFoundE s!"Book with ID {bookId} not found.")) ∧
    (∀ book, findBook s bookId = some book →
      findOpenLoan s bookId userId = none →
      returnBook s bookId userId now
        = .error (.notFoundE "No active borrow record found for this user and book.")) := by
  refine ⟨?_, ?_⟩
  · intro h0
    simp only [returnBook, h0]
  · intro book hfb hnl
    simp only [returnBook, hfb, hnl]

theorem claim_return_notFound_witness :
    returnBook exS1 1 7 0
      = .error (.notFoundE "No active borrow record found for this user and book.") :=
  (claim_return_notFound exS1 1 7 0).2 exBook rfl rfl

/-- A state with one Title that has no available copies while user 7
still holds an open Loan on it. -/
def exNoCopies : LibraryState :=
  ⟨[⟨1, "T", "A", "i", 2000, 1, 0, none⟩], [⟨1, 1, 7, 0, none⟩], 2, 2⟩

/-- C10: error precedence in Borrow — when the Title exists, has
`availableCopies = 0`, and the caller already holds an open Loan on it
(both preconditions violated), Borrow fails with InvalidState
(BadRequest "No copies of this book are available."), not Conflict: the
availability check runs before the duplicate-loan check. -/
theorem claim_borrow_precedence {s : LibraryState} {bookId userId now : Nat}
    {book : Book} {record : BorrowRecord}
    (hfb : findBook s bookId = some book)
    (hav : book.availableQuantity = 0)
    (hfl : findOpenLoan s bookId userId = some record) :
    borrow s bookId userId now
      = .error (.badRequestE "No copies of this book are available.") := by
  have hopen : findOpenLoan s bookId userId ≠ none := by simp [hfl]
  simp only [borrow, hfb]
  rw [if_pos (by omega)]

theorem claim_borrow_precedence_witness :
    borrow exNoCopies 1 7 4
      = .error (.badRequestE "No copies of this book are available.") :=
  @claim_borrow_precedence exNoCopies 1 7 4 ⟨1, "T", "A", "i", 2000, 1, 0, none⟩
    ⟨1, 1, 7, 0, none⟩ rfl (by decide) rfl

theorem eq_of_nodup_ids_loan {loans : List BorrowRecord}
    (hnd : (loans.map BorrowRecord.id).Nodup)
    {a b : BorrowRecord} (ha : a ∈ loans) (hb : b ∈ loans) (hid : a.id = b.id) : a = b :=
  List.inj_on_of_nodup_map hnd ha hb hid

theorem saveBookRow_eq_adjust {books : List Book} {book : Book} (f : Book → Book)
    (hnd : (books.map Book.id).Nodup) (hmem : book ∈ books) (hid : (f book).id = book.id) :
    saveBookRow books (f book)
      = books.map (fun b => if b.id == book.id then f b else b) := by
  unfold saveBookRow
  apply List.map_congr_left
  intro b hb
  rw [hid]
  by_cases hidb : b.id = book.id
  · rw [if_pos (by simp [hidb]), if_pos (by simp [hidb])]
    rw [eq_of_nodup_ids_book hnd hb hmem hidb]
  · rw [if_neg (by simp [hidb]), if_neg (by simp [hidb])]

theorem saveLoanRow_eq_adjust {loans : List BorrowRecord} {record : BorrowRecord}
    (f : BorrowRecord → BorrowRecord)
    (hnd : (loans.map BorrowRecord.id).Nodup) (hmem : record ∈ loans)
    (hid : (f record).id = record.id) :
    saveLoanRow loans (f record)
      = loans.map (fun l => if l.id == record.id then f l else l) := by
  unfold saveLoanRow
  apply List.map_congr_left
  intro l hl
  rw [hid]
  by_cases hidl : l.id = record.id
  · rw [if_pos (by simp [hidl]), if_pos (by simp [hidl])]
    rw [eq_of_nodup_ids_loan hnd hl hmem hidl]
  · rw [if_neg (by simp [hidl]), if_neg (by simp [hidl])]

/-- C2: when the Title exists, has a copy available, and the caller holds
no open Loan on it, Borrow succeeds: it decrements exactly that Title's
`availableQuantity` by 1 (every other row unchanged), appends exactly one
new open Loan (`returnedAt = none`) for the pair, returns that Loan, and
changes nothing else (the loan table gains only the one row, the counters
advance only the loan-id generator). -/
theorem claim_borrow_success {s : LibraryState} {bookId userId now : Nat} {book : Book}
    (hids : (s.books.map Book.id).Nodup)
    (hfb : findBook s bookId = some book)
    (hav : 0 < book.availableQuantity)
    (hnl : findOpenLoan s bookId userId = none) :
    borrow s bookId userId now = .ok
      ({ books := s.books.map (fun b => if b.id == bookId
            then { b with availableQuantity := b.availableQuantity - 1 } else b)
         loans := s.loans ++ [{ id := s.nextLoanId, bookId := bookId, userId := userId,
                                borrowedAt := now, returnedAt := none }]
         nextBookId := s.nextBookId
         nextLoanId := s.nextLoanId + 1 },
       { id := s.nextLoanId, bookId := bookId, userId := userId,
         borrowedAt := now, returnedAt := none }) := by
  obtain ⟨hmem, hbid⟩ := findBook_mem_id hfb
  subst hbid
  simp only [borrow, hfb]
  rw [if_neg (by omega), hnl]
  rw [saveBookRow_eq_adjust
    (fun b => { b with availableQuantity := b.availableQuantity - 1 }) hids hmem rfl]

theorem claim_borrow_success_witness :
    borrow exS1 1 7 3 = .ok (exS2, ⟨1, 1, 7, 3, none⟩) := by
  have h := @claim_borrow_success exS1 1 7 3 exBook (by decide) rfl (by decide) rfl
  exact h

/-- C4: when the Title exists, an open Loan for the pair exists, and
`availableCopies < totalCopies`, Return succeeds: it increments exactly
that Title's `availableQuantity` by 1, closes exactly that Loan by
setting its `returnedAt` to the supplied current time, returns the closed
Loan, and changes nothing else (every other book row and loan row is
unchanged and both id generators keep their values). -/
theorem claim_return_success {s : LibraryState} {bookId userId now : Nat}
    {book : Book} {record : BorrowRecord}
    (hbids : (s.books.map Book.id).Nodup)
    (hlids : (s.loans.map BorrowRecord.id).Nodup)
    (hfb : findBook s bookId = some book)
    (hfl : findOpenLoan s bookId userId = some record)
    (hlt : book.availableQuantity < book.quantity) :
    returnBook s bookId userId now = .ok
      ({ books := s.books.map (fun b => if b.id == bookId
            then { b with availableQuantity := b.availableQuantity + 1 } else b)
         loans := s.loans.map (fun l => if l.id == record.id
            then { l with returnedAt := some now } else l)
         nextBookId := s.nextBookId
         nextLoanId := s.nextLoanId },
       { record with returnedAt := some now }) := by
  obtain ⟨hmem, hbid⟩ := findBook_mem_id hfb
  obtain ⟨hlm, _, _, _⟩ := findOpenLoan_mem hfl
  subst hbid
  simp only [returnBook, hfb, hfl]
  rw [if_neg (by omega)]
  rw [saveBookRow_eq_adjust
    (fun b => { b with availableQuantity := b.availableQuantity + 1 }) hbids hmem rfl]
  rw [saveLoanRow_eq_adjust
    (fun l => { l with returnedAt := some now }) hlids hlm rfl]

theorem claim_return_success_witness :
    returnBook exS2 1 7 9 = .ok
      (⟨[exBook], [⟨1, 1, 7, 3, some 9⟩], 2, 2⟩, ⟨1, 1, 7, 3, some 9⟩) := by
  have h := @claim_return_success exS2 1 7 9 { exBook with availableQuantity := 1 }
    ⟨1, 1, 7, 3, none⟩ (by decide) (by decide) rfl rfl (by decide)
  exact h

/-- C6 (amended): UpdateQuantity computes `outstanding = totalCopies −
availableCopies` from the currently stored values; when `newTotal <
outstanding` it fails with InvalidInput (BadRequest) and, the transaction
returning `.error`, the Title is unchanged; otherwise it succeeds and the
stored row becomes `totalCopies = newTotal`, `availableCopies = newTotal −
outstanding`. For the Title with `totalCopies = 10, availableCopies = 8`
(outstanding 2), `UpdateQuantity(id, 3)` therefore succeeds with
`availableCopies = 1` (3 ≥ 2) — not the failure the original claim
asserted — while `UpdateQuantity(id, 1)` fails with InvalidInput and
`UpdateQuantity(id, 12)` succeeds yielding `availableCopies = 10`. -/
theorem claim_update_quantity {s : LibraryState} {id : Nat} {book : Book}
    (newTotal : Int)
    (hfb : findBook s id = some book) :
    (newTotal < book.quantity - book.availableQuantity →
      update s id { quantity := some newTotal }
        = .error (.badRequestE
            "New quantity cannot be less than the number of borrowed books.")) ∧
    (book.quantity - book.availableQuantity ≤ newTotal →
      update s id { quantity := some newTotal }
        = .ok
          (⟨saveBookRow s.books
              { book with
                  quantity := newTotal
                  availableQuantity :=
                    newTotal - (book.quantity - book.availableQuantity) },
            s.loans, s.nextBookId, s.nextLoanId⟩,
            { book with
                quantity := newTotal
                availableQuantity :=
                  newTotal - (book.quantity - book.availableQuantity) })) := by
  refine ⟨?_, ?_⟩
  · intro hlt
    simp only [update, hfb]
    rw [if_pos hlt]
  · intro hle
    simp only [update, hfb]
    rw [if_neg (by omega)]
    rfl

/-- The spec's quantity-reconciliation example: `totalCopies = 10`,
`availableCopies = 8`, two outstanding loans (users 7 and 8). -/
def exS10 : LibraryState :=
  ⟨[⟨1, "B", "A", "i", 2000, 10, 8, none⟩],
   [⟨1, 1, 7, 0, none⟩, ⟨2, 1, 8, 0, none⟩], 2, 3⟩

/-- Counterexample to C6 as stated: on the 10/8 Title the original claim
asserts `UpdateQuantity(id, 3)` fails with InvalidInput, but outstanding
is 10 − 8 = 2 and 3 ≥ 2, so the code commits the update, yielding
`totalCopies = 3, availableCopies = 1`. -/
theorem claim_update_quantity_cex :
    update exS10 1 { quantity := some 3 }
      = .ok
        (⟨[⟨1, "B", "A", "i", 2000, 3, 1, none⟩],
          [⟨1, 1, 7, 0, none⟩, ⟨2, 1, 8, 0, none⟩], 2, 3⟩,
         ⟨1, "B", "A", "i", 2000, 3, 1, none⟩) := rfl

theorem claim_update_quantity_witness :
    update exS10 1 { quantity := some 1 }
      = .error (.badRequestE
          "New quantity cannot be less than the number of borrowed books.") ∧
    update exS10 1 { quantity := some 12 }
      = .ok
        (⟨[⟨1, "B", "A", "i", 2000, 12, 10, none⟩],
          [⟨1, 1, 7, 0, none⟩, ⟨2, 1, 8, 0, none⟩], 2, 3⟩,
         ⟨1, "B", "A", "i", 2000, 12, 10, none⟩) := by
  constructor
  · exact (@claim_update_quantity exS10 1 ⟨1, "B", "A", "i", 2000, 10, 8, none⟩ 1 rfl).1
      (by decide)
  · have h := (@claim_update_quantity exS10 1 ⟨1, "B", "A", "i", 2000, 10, 8, none⟩ 12 rfl).2
      (by decide)
    exact h

/-- Generalisation of `find?_saveBookRow_self` to an arbitrary key equal
to the saved row's id. -/
theorem find?_saveBookRow_key (books : List Book) (b1 : Book) (k : Nat)
    (hk : b1.id = k) :
    (saveBookRow books b1).find? (fun b => b.id == k)
      = (books.find? (fun b => b.id == k)).map (fun _ => b1) := by
  subst hk
  exact find?_saveBookRow_self books b1

/-- A Title with a single copy, still on the shelf, and no loans. -/
def exRace : LibraryState := ⟨[⟨1, "T", "A", "i", 2000, 1, 1, none⟩], [], 2, 1⟩

/-- C9: with `totalCopies = 1, availableCopies = 1` and neither borrower
holding an open Loan, the per-Title exclusive row lock serializes two
concurrent Borrow calls, so their effect is one of the two sequential
orders; in either order the first call succeeds, the second fails with
InvalidState (BadRequest "No copies of this book are available."), and
the final `availableCopies` is 0. -/
theorem claim_borrow_race {s : LibraryState} {bookId u1 u2 : Nat} {book : Book}
    (hids : (s.books.map Book.id).Nodup)
    (hfb : findBook s bookId = some book)
    (htot : book.quantity = 1) (hav : book.availableQuantity = 1)
    (hn1 : findOpenLoan s bookId u1 = none)
    (hn2 : findOpenLoan s bookId u2 = none) :
    ∀ a b2 now1 now2, ((a = u1 ∧ b2 = u2) ∨ (a = u2 ∧ b2 = u1)) →
      ∃ s1 r, borrow s bookId a now1 = .ok (s1, r) ∧
        borrow s1 bookId b2 now2
          = .error (.badRequestE "No copies of this book are available.") ∧
        findBook s1 bookId = some { book with availableQuantity := 0 } := by
  obtain ⟨hmem, hbid⟩ := findBook_mem_id hfb
  subst hbid
  have main : ∀ u v now1 now2, findOpenLoan s book.id u = none →
      ∃ s1 r, borrow s book.id u now1 = .ok (s1, r) ∧
        borrow s1 book.id v now2
          = .error (.badRequestE "No copies of this book are available.") ∧
        findBook s1 book.id = some { book with availableQuantity := 0 } := by
    intro u v now1 now2 hnu
    have hdec : book.availableQuantity - 1 = (0 : Int) := by omega
    refine ⟨{ s with
        books := saveBookRow s.books { book with availableQuantity := 0 }
        loans := s.loans ++ [⟨s.nextLoanId, book.id, u, now1, none⟩]
        nextLoanId := s.nextLoanId + 1 },
      ⟨s.nextLoanId, book.id, u, now1, none⟩, ?_, ?_, ?_⟩
    · simp only [borrow, hfb]
      rw [if_neg (by omega), hnu, hdec]
    · have hfb1 : findBook
          { s with
            books := saveBookRow s.books { book with availableQuantity := 0 }
            loans := s.loans ++ [⟨s.nextLoanId, book.id, u, now1, none⟩]
            nextLoanId := s.nextLoanId + 1 } book.id
          = some { book with availableQuantity := 0 } := by
        show (saveBookRow s.books ({ book with availableQuantity := 0 })).find?
            (fun b => b.id == book.id) = _
        rw [find?_saveBookRow_key s.books { book with availableQuantity := 0 } book.id rfl]
        unfold findBook at hfb
        rw [hfb]
        rfl
      simp only [borrow, hfb1]
      rw [if_pos (by omega)]
    · show (saveBookRow s.books ({ book with availableQuantity := 0 })).find?
          (fun b => b.id == book.id) = _
      rw [find?_saveBookRow_key s.books { book with availableQuantity := 0 } book.id rfl]
      unfold findBook at hfb
      rw [hfb]
      rfl
  intro a b2 now1 now2 hcase
  rcases hcase with ⟨ha, hb2⟩ | ⟨ha, hb2⟩
  · rw [ha, hb2]
    exact main u1 u2 now1 now2 hn1
  · rw [ha, hb2]
    exact main u2 u1 now1 now2 hn2

theorem claim_borrow_race_witness :
    ∃ s1 r, borrow exRace 1 7 0 = .ok (s1, r) ∧
      borrow s1 1 8 1
        = .error (.badRequestE "No copies of this book are available.") ∧
      findBook s1 1 = some ⟨1, "T", "A", "i", 2000, 1, 0, none⟩ :=
  @claim_borrow_race exRace 1 7 8 ⟨1, "T", "A", "i", 2000, 1, 1, none⟩
    (by decide) rfl (by decide) (by decide) rfl rfl
    7 8 0 1 (Or.inl ⟨rfl, rfl⟩)

/-- C7: in every reachable state in which Borrow succeeds, the subsequent
Return by the same borrower on the same Title succeeds, restores the book
table exactly to its pre-borrow contents (in particular that Title's
`availableCopies`), and leaves the loan table equal to the pre-borrow
table plus exactly one additional record for the pair — the loan the
borrow created, now closed (`returnedAt` set to the return time). -/
theorem claim_borrow_return_roundtrip {s s1 : LibraryState}
    {bookId userId now now2 : Nat} {newLoan : BorrowRecord}
    (hreach : Reachable s)
    (hb : borrow s bookId userId now = .ok (s1, newLoan)) :
    ∃ s2 closed, returnBook s1 bookId userId now2 = .ok (s2, closed) ∧
      s2.books = s.books ∧
      closed = { newLoan with returnedAt := some now2 } ∧
      s2.loans = s.loans ++ [closed] := by
  obtain ⟨hwf, hinv⟩ := reachable_storeWF_coreInv hreach
  obtain ⟨hbn, hbb, hln, hlb, hlk⟩ := hwf
  obtain ⟨book, hfb, hav, hfl, hr, hs'⟩ := borrow_ok_elim hb
  obtain ⟨hmem, hbid⟩ := findBook_mem_id hfb
  obtain ⟨h1, h2, h3⟩ := hinv book hmem
  subst hs'
  subst hr
  subst hbid
  have hfb1 : findBook
      ⟨saveBookRow s.books { book with availableQuantity := book.availableQuantity - 1 },
       s.loans ++ [⟨s.nextLoanId, book.id, userId, now, none⟩],
       s.nextBookId, s.nextLoanId + 1⟩ book.id
      = some { book with availableQuantity := book.availableQuantity - 1 } := by
    show (saveBookRow s.books
        ({ book with availableQuantity := book.availableQuantity - 1 })).find?
        (fun b => b.id == book.id) = _
    rw [find?_saveBookRow_key s.books
      { book with availableQuantity := book.availableQuantity - 1 } book.id rfl]
    unfold findBook at hfb
    rw [hfb]
    rfl
  have hfl1 : findOpenLoan
      ⟨saveBookRow s.books { book with availableQuantity := book.availableQuantity - 1 },
       s.loans ++ [⟨s.nextLoanId, book.id, userId, now, none⟩],
       s.nextBookId, s.nextLoanId + 1⟩ book.id userId
      = some ⟨s.nextLoanId, book.id, userId, now, none⟩ := by
    unfold findOpenLoan at hfl ⊢
    show ((s.loans ++ [(⟨s.nextLoanId, book.id, userId, now, none⟩ : BorrowRecord)]).find?
      (fun l => l.bookId == book.id && l.userId == userId && l.returnedAt.isNone)) = _
    rw [List.find?_append, hfl]
    simp
  refine ⟨(⟨saveBookRow
        (saveBookRow s.books { book with availableQuantity := book.availableQuantity - 1 })
        { book with availableQuantity := book.availableQuantity - 1 + 1 },
      saveLoanRow (s.loans ++ [⟨s.nextLoanId, book.id, userId, now, none⟩])
        ⟨s.nextLoanId, book.id, userId, now, some now2⟩,
      s.nextBookId, s.nextLoanId + 1⟩ : LibraryState),
    (⟨s.nextLoanId, book.id, userId, now, some now2⟩ : BorrowRecord), ?_, ?_, rfl, ?_⟩
  · simp only [returnBook, hfb1, hfl1]
    rw [if_neg (show ¬(book.availableQuantity - 1 ≥ book.quantity) by omega)]
  · show saveBookRow
        (saveBookRow s.books ({ book with availableQuantity := book.availableQuantity - 1 }))
        ({ book with availableQuantity := book.availableQuantity - 1 + 1 }) = s.books
    unfold saveBookRow
    rw [List.map_map]
    conv_rhs => rw [show s.books = s.books.map id from (List.map_id _).symm]
    apply List.map_congr_left
    intro b hb2
    simp only [Function.comp_apply, id_eq]
    by_cases hidb : b.id = book.id
    · rw [if_pos (show (b.id == ({ book with
          availableQuantity := book.availableQuantity - 1 } : Book).id) = true
          by simp [hidb])]
      rw [if_pos (show ((({ book with
          availableQuantity := book.availableQuantity - 1 } : Book)).id == ({ book with
          availableQuantity := book.availableQuantity - 1 + 1 } : Book).id) = true by simp)]
      rw [eq_of_nodup_ids_book hbn hb2 hmem hidb]
      rw [show book.availableQuantity - 1 + 1 = book.availableQuantity from by omega]
    · rw [if_neg (show ¬(b.id == ({ book with
          availableQuantity := book.availableQuantity - 1 } : Book).id) = true
          by simp [hidb])]
      rw [if_neg (show ¬(b.id == ({ book with
          availableQuantity := book.availableQuantity - 1 + 1 } : Book).id) = true
          by simp [hidb])]
  · show saveLoanRow (s.loans ++ [⟨s.nextLoanId, book.id, userId, now, none⟩])
        ⟨s.nextLoanId, book.id, userId, now, some now2⟩
        = s.loans ++ [⟨s.nextLoanId, book.id, userId, now, some now2⟩]
    unfold saveLoanRow
    rw [List.map_append]
    congr 1
    · conv_rhs => rw [show s.loans = s.loans.map id from (List.map_id _).symm]
      apply List.map_congr_left
      intro l hl
      have hlt2 := hlb l hl
      rw [if_neg (show ¬(l.id == (⟨s.nextLoanId, book.id, userId, now,
          some now2⟩ : BorrowRecord).id) = true by simp; omega)]
      rfl
    · simp

theorem claim_borrow_return_roundtrip_witness :
    ∃ s2 closed, returnBook exS2 1 7 9 = .ok (s2, closed) ∧
      s2.books = exS1.books ∧
      closed = (⟨1, 1, 7, 3, some 9⟩ : BorrowRecord) ∧
      s2.loans = exS1.loans ++ [closed] :=
  @claim_borrow_return_roundtrip exS1 exS2 1 7 3 9 ⟨1, 1, 7, 3, none⟩
    exS1_reachable rfl
